import Mathlib

/-!
# Verification of the currency-converter core

A shallow embedding of the conversion service:

* `MonobankRate`, `findRate`, `calculateConversion`, `getRequiredRate` and
  `convertCore` embed `src/src/app.service.ts` (the cached variant, the one the
  spec describes: lines 169-353);
* `fetchWithRetry` embeds `CurrencyApiService.fetchWithRetry` and the
  circuit-breaker state machine embeds `fetchWithCircuitBreaker` /
  `handleCircuitBreakerFailure` from `src/src/app.controller.ts` (the
  `currency-api.service.ts` part of that bundle).

Numbers are modelled as rationals (`ℚ`); JavaScript truthiness on an optional
numeric field is "present and nonzero", which the helpers `jsOr` (the `||`
operator) and `nullish` (the `??` operator) make explicit.
-/

namespace CurrencyConverter

/-- Modelled from the spec: the base-currency numeric code (UAH). The constant
`UAH_CODE` lives in `src/constants/currency-codes.ts`, which is not among the
provided sources; the spec fixes the base currency as UAH and the repository
tests use the ISO-4217 code 980 for it. -/
def UAH_CODE : ℕ := 980

/-- One provider rate record (`MonobankRate` in `currency-api.service.ts`).
`rateBuy`, `rateSell` and `rateCross` are optional fields. -/
structure MonobankRate where
  currencyCodeA : ℕ
  currencyCodeB : ℕ
  date : ℕ
  rateBuy : Option ℚ := none
  rateSell : Option ℚ := none
  rateCross : Option ℚ := none
  deriving DecidableEq, Repr

/-- JavaScript `a || b` on an optional number `a` and a number `b`: the value
of `a` when it is present and nonzero (truthy), else `b`. -/
def jsOr (a : Option ℚ) (b : ℚ) : ℚ :=
  match a with
  | some v => if v = 0 then b else v
  | none => b

/-- JavaScript `a ?? b` on optional numbers: `a` when present (even zero),
else `b`. -/
def nullish (a b : Option ℚ) : Option ℚ :=
  match a with
  | some v => some v
  | none => b

/-- The search predicate of every lookup inside `findRate`:
`r.currencyCodeA === code && r.currencyCodeB === UAH_CODE`. -/
def isLegFor (code : ℕ) (r : MonobankRate) : Bool :=
  r.currencyCodeA = code ∧ r.currencyCodeB = UAH_CODE

/-- Embeds `AppService.findRate` (app.service.ts lines 253-294): direct lookup when
either code is the base currency, otherwise synthesis of a cross-rate record
from the two base-currency legs. -/
def findRate (rates : List MonobankRate) (fromCode toCode : ℕ) :
    Option MonobankRate :=
  if fromCode = UAH_CODE ∨ toCode = UAH_CODE then
    let foreignCode := if fromCode = UAH_CODE then toCode else fromCode
    rates.find? (isLegFor foreignCode)
  else
    match
      rates.find? (isLegFor fromCode), rates.find? (isLegFor toCode) with
    | some fromToUah, some toToUah =>
      some
        { currencyCodeA := fromCode
          currencyCodeB := toCode
          date := max fromToUah.date toToUah.date
          rateCross :=
            some (jsOr fromToUah.rateBuy (jsOr fromToUah.rateCross 1) /
              jsOr toToUah.rateSell (jsOr toToUah.rateCross 1)) }
    | _, _ => none

/-- The direction of a rate lookup, the `'buy' | 'sell' | 'cross'` literal type
of `getRequiredRate`. -/
inductive RateType where
  | buy
  | sell
  | cross
  deriving DecidableEq, Repr

/-- The failure modes of the conversion pipeline, each one `HttpException`
thrown by `app.service.ts`. -/
inductive ConvError where
  /-- 400: amount is not a positive number. -/
  | invalidAmount
  /-- 400: a currency symbol has no numeric code. -/
  | unsupportedCurrency
  /-- 404: `findRate` returned null. -/
  | rateNotFound
  /-- 503: `getRequiredRate` found no usable value. -/
  | incompleteRateData
  deriving DecidableEq, Repr

/-- Embeds `AppService.getRequiredRate` (lines 313-339): select the directional field
with `??` fallback to `rateCross`, then throw when the selected value is
falsy (`!value`): absent or zero. -/
def getRequiredRate (rate : MonobankRate) (type : RateType) :
    Except ConvError ℚ :=
  let value : Option ℚ :=
    match type with
    | .buy => nullish rate.rateBuy rate.rateCross
    | .sell => nullish rate.rateSell rate.rateCross
    | .cross => rate.rateCross
  match value with
  | none => .error .incompleteRateData
  | some v => if v = 0 then .error .incompleteRateData else .ok v

/-- Embeds `AppService.calculateConversion` (lines 296-311): multiply by the buy rate
into the base currency, divide by the sell rate out of it, multiply by the
cross rate otherwise. -/
def calculateConversion (amount : ℚ) (rate : MonobankRate)
    (fromCode toCode : ℕ) : Except ConvError ℚ :=
  if toCode = UAH_CODE then
    (getRequiredRate rate .buy).map fun r => amount * r
  else if fromCode = UAH_CODE then
    (getRequiredRate rate .sell).map fun r => amount / r
  else
    (getRequiredRate rate .cross).map fun r => amount * r

/-- Embeds `Number(x.toFixed(4))`: round to 4 decimal places, ties toward the larger
candidate (the ECMAScript `toFixed` contract picks the larger integer on a
tie). -/
def round4 (x : ℚ) : ℚ :=
  (⌊x * 10000 + 1 / 2⌋ : ℚ) / 10000

/-- The numeric core of `AppService.convert` (lines 169-243) after symbol
lookup and cache handling: validate the amount, resolve the rate, convert,
round to 4 decimals. -/
def convertCore (rates : List MonobankRate) (fromCode toCode : ℕ)
    (amount : ℚ) : Except ConvError ℚ :=
  if amount ≤ 0 then .error .invalidAmount
  else
    match findRate rates fromCode toCode with
    | none => .error .rateNotFound
    | some rate => (calculateConversion amount rate fromCode toCode).map round4

instance {ε α : Type} [DecidableEq ε] [DecidableEq α] :
    DecidableEq (Except ε α)
  | .ok a, .ok b =>
    match decEq a b with
    | isTrue h => isTrue (h ▸ rfl)
    | isFalse h => isFalse fun he => h (Except.ok.inj he)
  | .ok _, .error _ => isFalse Except.noConfusion
  | .error _, .ok _ => isFalse Except.noConfusion
  | .error e, .error f =>
    match decEq e f with
    | isTrue h => isTrue (h ▸ rfl)
    | isFalse h => isFalse fun he => h (Except.error.inj he)

/-- The `ConvertResponseDto` returned by `AppService.convert`. -/
structure ConvertResponse where
  fromCurrency : String
  toCurrency : String
  amount : ℚ
  result : ℚ
  deriving DecidableEq, Repr

/-- The observable behaviour of one `AppService.convert` call: its outcome,
and whether the upstream fetch (`getExchangeRates`) and the rate resolver
(`findRate`) were reached. -/
structure ConvertTrace where
  result : Except ConvError ConvertResponse
  fetchCalled : Bool
  resolverCalled : Bool
  deriving DecidableEq, Repr

/-- Embeds `AppService.convert` (lines 169-243), with the symbol-to-code table, the
conversion-result cache entry for this request and the fetched snapshot given
as parameters: validate the amount, look both symbols up (a missing or falsy
code is a 400), return the cached response on a cache hit, otherwise fetch,
resolve, convert, round and respond with the symbols uppercased. -/
def convert (lookup : String → Option ℕ) (cache : Option ConvertResponse)
    (rates : List MonobankRate) (fromSymbol toSymbol : String)
    (amount : ℚ) : ConvertTrace :=
  if amount ≤ 0 then ⟨.error .invalidAmount, false, false⟩
  else
    match lookup fromSymbol with
    | none => ⟨.error .unsupportedCurrency, false, false⟩
    | some fromCode =>
      if fromCode = 0 then ⟨.error .unsupportedCurrency, false, false⟩
      else
        match lookup toSymbol with
        | none => ⟨.error .unsupportedCurrency, false, false⟩
        | some toCode =>
          if toCode = 0 then ⟨.error .unsupportedCurrency, false, false⟩
          else
            match cache with
            | some cached => ⟨.ok cached, false, false⟩
            | none =>
              match findRate rates fromCode toCode with
              | none => ⟨.error .rateNotFound, true, true⟩
              | some rate =>
                match calculateConversion amount rate fromCode toCode with
                | .error e => ⟨.error e, true, true⟩
                | .ok v =>
                  ⟨.ok ⟨fromSymbol.toUpper, toSymbol.toUpper, amount,
                    round4 v⟩, true, true⟩

/-! ## The retrier (`CurrencyApiService.fetchWithRetry`) -/

/-- What one transport attempt (`firstValueFrom(this.httpService.get(...))`)
does: deliver a parsed rate list, or fail with an optional HTTP status
(`none` models a network error or timeout with no response). -/
inductive AttemptOutcome where
  | ok (rates : List MonobankRate)
  | fail (status : Option ℕ)
  deriving DecidableEq, Repr

/-- The errors `fetchWithRetry` can surface. -/
inductive RetryError where
  /-- `Monobank API error: ...`, rethrown with the provider status (4xx). -/
  | clientError (status : ℕ)
  /-- 503 `Failed to fetch exchange rates after multiple attempts`. -/
  | serviceUnavailable
  /-- 503 `Failed to fetch exchange rates`: the fall-through after the loop,
  reachable only when the retry budget is zero. -/
  | fellThrough
  deriving DecidableEq, Repr

/-- The `status && status >= 400 && status < 500` guard of `fetchWithRetry`
(a falsy — missing or zero — status fails the guard). -/
def isClientStatus (status : Option ℕ) : Bool :=
  match status with
  | some s => decide (s ≠ 0 ∧ 400 ≤ s ∧ s < 500)
  | none => false

/-- The observable behaviour of one `fetchWithRetry` run: its outcome, how
many transport attempts it made, and the backoff waits it slept between
attempts, in order. -/
structure RetryRun where
  result : Except RetryError (List MonobankRate)
  calls : ℕ
  delays : List ℕ
  deriving DecidableEq, Repr

/-- The loop body of `fetchWithRetry` (app.controller.ts bundle lines
134-190), at 1-indexed attempt `attempt` with `remaining` further attempts
allowed after this one: on success return the data; on a 4xx-status failure
rethrow with the provider status; on the last attempt throw 503; otherwise
sleep `delay * 2 ^ (attempt - 1)` and retry. -/
def fetchWithRetryGo (delay : ℕ) (transport : ℕ → AttemptOutcome) :
    ℕ → ℕ → RetryRun
  | attempt, remaining =>
    match transport attempt with
    | .ok rates => ⟨.ok rates, 1, []⟩
    | .fail status =>
      if isClientStatus status then
        ⟨.error (.clientError (status.getD 0)), 1, []⟩
      else
        match remaining with
        | 0 => ⟨.error .serviceUnavailable, 1, []⟩
        | remaining + 1 =>
          let rest := fetchWithRetryGo delay transport (attempt + 1) remaining
          ⟨rest.result, rest.calls + 1, delay * 2 ^ (attempt - 1) :: rest.delays⟩

/-- Embeds `CurrencyApiService.fetchWithRetry(retries, delay)`, driven by the
per-attempt transport outcomes: run the loop from attempt 1; with a zero
budget the loop never runs and the fall-through 503 is thrown. -/
def fetchWithRetry (retries delay : ℕ) (transport : ℕ → AttemptOutcome) :
    RetryRun :=
  match retries with
  | 0 => ⟨.error .fellThrough, 0, []⟩
  | r + 1 => fetchWithRetryGo delay transport 1 r

/-! ## The circuit breaker (`fetchWithCircuitBreaker`) -/

/-- The mutable breaker fields of `CurrencyApiService`: `failureCount`,
`lastFailureTime` and `circuitOpen`. -/
structure CBState where
  failureCount : ℕ
  lastFailureTime : Option ℤ
  circuitOpen : Bool
  deriving DecidableEq, Repr

/-- The breaker configuration: `CIRCUIT_BREAKER_THRESHOLD` (default 5) and
`CIRCUIT_BREAKER_TIMEOUT` (default 30000 ms). -/
structure CBConfig where
  failureThreshold : ℕ
  circuitTimeout : ℤ
  deriving DecidableEq, Repr

/-- The breaker state at process start. -/
def initialCBState : CBState := ⟨0, none, false⟩

/-- Embeds `CurrencyApiService.handleCircuitBreakerFailure` (lines 192-202):
increment the failure count, stamp the failure time, and open the circuit
once the count reaches the threshold. -/
def handleCircuitBreakerFailure (cfg : CBConfig) (s : CBState) (now : ℤ) :
    CBState :=
  let failureCount := s.failureCount + 1
  { failureCount := failureCount
    lastFailureTime := some now
    circuitOpen :=
      if cfg.failureThreshold ≤ failureCount then true else s.circuitOpen }

/-- The errors `fetchWithCircuitBreaker` can surface. -/
inductive UpstreamError where
  /-- 503 `Service temporarily unavailable` thrown while the circuit is open,
  before any network activity. -/
  | circuitOpenRejection
  /-- An error propagated from the inner `fetchWithRetry` call. -/
  | retryError (e : RetryError)
  deriving DecidableEq, Repr

/-- The observable behaviour of one `fetchWithCircuitBreaker` call: whether
the inner fetch was attempted at all, the outcome, and the breaker state
afterwards. -/
structure CBCall where
  attempted : Bool
  result : Except UpstreamError (List MonobankRate)
  state : CBState
  deriving DecidableEq, Repr

/-- Embeds `CurrencyApiService.fetchWithCircuitBreaker` (lines 105-132) at time
`now`, where `inner` is what the wrapped `fetchWithRetry` call would produce:
while the circuit is open and the reset timeout has not elapsed since the
last failure, reject without attempting the fetch; otherwise attempt it, and
on success reset the breaker, on failure record the failure. -/
def fetchWithCircuitBreaker (cfg : CBConfig) (s : CBState) (now : ℤ)
    (inner : Except RetryError (List MonobankRate)) : CBCall :=
  if s.circuitOpen = true ∧ now - s.lastFailureTime.getD 0 < cfg.circuitTimeout
  then ⟨false, .error .circuitOpenRejection, s⟩
  else
    match inner with
    | .ok rates => ⟨true, .ok rates, ⟨0, none, false⟩⟩
    | .error e =>
      ⟨true, .error (.retryError e), handleCircuitBreakerFailure cfg s now⟩

/-! ## Helper lemmas -/

theorem isLegFor_eq_true (code : ℕ) (r : MonobankRate) :
    isLegFor code r = true ↔
      r.currencyCodeA = code ∧ r.currencyCodeB = UAH_CODE := by
  simp [isLegFor]

/-- Lemma: `List.find?` returns the first match: a match preceded only by
non-matching elements is the result. -/
theorem find?_eq_some_of_first {α : Type} (p : α → Bool) (pre : List α)
    (r : α) (post : List α) (hr : p r = true)
    (hpre : ∀ x ∈ pre, p x = false) :
    (pre ++ r :: post).find? p = some r := by
  induction pre with
  | nil => simp [List.find?, hr]
  | cons a as ih =>
    have ha : p a = false := hpre a (by simp)
    simp only [List.cons_append, List.find?, ha]
    exact ih fun x hx => hpre x (by simp [hx])

/-- The direct branch of `findRate`: when either code is the base currency,
the result is the first snapshot record pairing the foreign code with the
base currency. -/
theorem findRate_direct_eq (rates : List MonobankRate) (fromCode toCode : ℕ)
    (h : fromCode = UAH_CODE ∨ toCode = UAH_CODE) :
    findRate rates fromCode toCode =
      rates.find?
        (isLegFor (if fromCode = UAH_CODE then toCode else fromCode)) := by
  unfold findRate
  rw [if_pos h]

/-- The cross branch of `findRate`: with both base-currency legs found, the
synthesized record. -/
theorem findRate_cross_eq (rates : List MonobankRate) (fromCode toCode : ℕ)
    (src tgt : MonobankRate) (hf : fromCode ≠ UAH_CODE)
    (ht : toCode ≠ UAH_CODE)
    (hsrc : rates.find? (isLegFor fromCode) = some src)
    (htgt : rates.find? (isLegFor toCode) = some tgt) :
    findRate rates fromCode toCode =
      some { currencyCodeA := fromCode, currencyCodeB := toCode,
             date := max src.date tgt.date,
             rateBuy := none, rateSell := none,
             rateCross := some (jsOr src.rateBuy (jsOr src.rateCross 1) /
               jsOr tgt.rateSell (jsOr tgt.rateCross 1)) } := by
  unfold findRate
  rw [if_neg (by tauto), hsrc, htgt]

/-- The cross branch of `findRate` with a missing leg: not found. -/
theorem findRate_cross_none (rates : List MonobankRate) (fromCode toCode : ℕ)
    (hf : fromCode ≠ UAH_CODE) (ht : toCode ≠ UAH_CODE)
    (h : rates.find? (isLegFor fromCode) = none ∨
      rates.find? (isLegFor toCode) = none) :
    findRate rates fromCode toCode = none := by
  unfold findRate
  rw [if_neg (by tauto)]
  rcases h with h | h
  · rw [h]
  · rw [h]
    cases rates.find? (isLegFor fromCode) <;> rfl

/-- Rounding moves a value by at most half of the last kept decimal place. -/
theorem abs_round4_sub_le (x : ℚ) : |round4 x - x| ≤ 1 / 20000 := by
  have h1 := Int.floor_le (x * 10000 + 1 / 2)
  have h2 := Int.lt_floor_add_one (x * 10000 + 1 / 2)
  rw [round4, abs_le]
  constructor <;> linarith

/-- A value of at least one rounding quantum stays positive after rounding. -/
theorem round4_pos_of_le (z : ℚ) (h : 1 / 10000 ≤ z) : 0 < round4 z := by
  have hb := abs_round4_sub_le z
  rw [abs_le] at hb
  linarith [hb.1]

theorem except_map_round4 (x : Except ConvError ℚ) (f : ℚ → ℚ) :
    Except.map round4 (x.map f) = x.map fun r => round4 (f r) := by
  cases x <;> rfl

/-! ## Sample records (the repository test fixtures) -/

/-- The USD leg of the repository tests: buy 37.5, sell 38. -/
def usdLeg : MonobankRate :=
  { currencyCodeA := 840, currencyCodeB := 980, date := 1704326400,
    rateBuy := some (75 / 2), rateSell := some 38 }

/-- The EUR leg of the repository tests: buy 41, sell 41.5. -/
def eurLeg : MonobankRate :=
  { currencyCodeA := 978, currencyCodeB := 980, date := 1704326400,
    rateBuy := some 41, rateSell := some (83 / 2) }

/-! ## C1 -/

/-- C1: for every resolved rate record and pair of codes, the conversion is
computed by direction — target base: `amount * requiredRate(rate, buy)`;
source base: `amount / requiredRate(rate, sell)`; otherwise
`amount * requiredRate(rate, cross)` — and `convert` returns that value
rounded to 4 decimal places. -/
theorem claim_C1 (rates : List MonobankRate) (fromCode toCode : ℕ)
    (amount : ℚ) (rate : MonobankRate) (hamt : 0 < amount)
    (hfind : findRate rates fromCode toCode = some rate) :
    convertCore rates fromCode toCode amount =
      if toCode = UAH_CODE then
        (getRequiredRate rate .buy).map fun r => round4 (amount * r)
      else if fromCode = UAH_CODE then
        (getRequiredRate rate .sell).map fun r => round4 (amount / r)
      else
        (getRequiredRate rate .cross).map fun r => round4 (amount * r) := by
  unfold convertCore
  rw [if_neg (not_le.mpr hamt), hfind]
  unfold calculateConversion
  split_ifs <;> simp [except_map_round4]

/-- C1 witness: the USD→UAH test fixture instantiates the direction rule. -/
theorem claim_C1_witness :
    convertCore [usdLeg] 840 980 100 =
      if (980 : ℕ) = UAH_CODE then
        (getRequiredRate usdLeg .buy).map fun r => round4 (100 * r)
      else if (840 : ℕ) = UAH_CODE then
        (getRequiredRate usdLeg .sell).map fun r => round4 ((100 : ℚ) / r)
      else
        (getRequiredRate usdLeg .cross).map fun r => round4 (100 * r) :=
  claim_C1 [usdLeg] 840 980 100 usdLeg (by norm_num)
    (by simp [findRate, isLegFor, usdLeg, UAH_CODE, List.find?])

/-! ## C2 -/

/-- Modelled from the spec: the cross-rate formula as the spec states it,
with nullish (`??`) coalescing:
`(sourceRecord.buyRate ?? sourceRecord.crossRate ?? 1) /
(targetRecord.sellRate ?? targetRecord.crossRate ?? 1)`. -/
def specCrossRate (src tgt : MonobankRate) : ℚ :=
  (nullish src.rateBuy (nullish src.rateCross (some 1))).getD 1 /
    (nullish tgt.rateSell (nullish tgt.rateCross (some 1))).getD 1

/-- A source leg whose `rateBuy` is present but zero: the JS `||` in the code
skips it, the spec's `??` would keep it. -/
def zeroBuyLeg : MonobankRate :=
  { currencyCodeA := 840, currencyCodeB := 980, date := 5,
    rateBuy := some 0, rateSell := some 1, rateCross := some 2 }

/-- A target leg with sell rate 4. -/
def fourSellLeg : MonobankRate :=
  { currencyCodeA := 978, currencyCodeB := 980, date := 7,
    rateBuy := some 41, rateSell := some 4 }

/-- C2 counterexample: with a source leg carrying `rateBuy = 0` and
`rateCross = 2`, the code synthesizes `crossRate = 2 / 4 = 1/2` (JS `||`
skips the zero), while the spec formula `buyRate ?? crossRate ?? 1` yields
`0 / 4 = 0`. -/
theorem claim_C2_cex :
    (findRate [zeroBuyLeg, fourSellLeg] 840 978).map (fun r => r.rateCross) =
      some (some (1 / 2)) ∧
    specCrossRate zeroBuyLeg fourSellLeg = 0 ∧ ((1 : ℚ) / 2) ≠ 0 := by
  refine ⟨?_, ?_, by norm_num⟩
  · simp [findRate, isLegFor, zeroBuyLeg, fourSellLeg, UAH_CODE, List.find?,
      jsOr]
    norm_num
  · simp [specCrossRate, nullish, zeroBuyLeg, fourSellLeg]

/-- C2 (amended): the synthesized cross record uses JS falsy (`||`)
coalescing — a present but zero rate is skipped — that is, `crossRate =
(buyRate if nonzero else crossRate if nonzero else 1) / (sellRate if nonzero
else crossRate if nonzero else 1)`; timestamp, currency codes and the absence
of buy/sell fields are as the claim states, and the concrete 37.5/41.5
scenario multiplies the amount by 37.5/41.5. -/
theorem claim_C2 :
    (∀ (rates : List MonobankRate) (fromCode toCode : ℕ)
      (src tgt : MonobankRate), fromCode ≠ UAH_CODE → toCode ≠ UAH_CODE →
      rates.find? (isLegFor fromCode) = some src →
      rates.find? (isLegFor toCode) = some tgt →
      findRate rates fromCode toCode =
        some { currencyCodeA := fromCode, currencyCodeB := toCode,
               date := max src.date tgt.date,
               rateBuy := none, rateSell := none,
               rateCross := some (jsOr src.rateBuy (jsOr src.rateCross 1) /
                 jsOr tgt.rateSell (jsOr tgt.rateCross 1)) }) ∧
    (∀ (amount : ℚ) (r : MonobankRate),
      findRate [usdLeg, eurLeg] 840 978 = some r →
      calculateConversion amount r 840 978 = .ok (amount * (75 / 83))) := by
  constructor
  · exact fun rates fc tc src tgt hf ht hsrc htgt =>
      findRate_cross_eq rates fc tc src tgt hf ht hsrc htgt
  · intro amount r hr
    have hfind : findRate [usdLeg, eurLeg] 840 978 =
        some { currencyCodeA := 840, currencyCodeB := 978,
               date := 1704326400, rateBuy := none, rateSell := none,
               rateCross := some (75 / 83) } := by
      simp [findRate, isLegFor, usdLeg, eurLeg, UAH_CODE, List.find?, jsOr]
      norm_num
    rw [hfind] at hr
    cases hr
    simp [calculateConversion, getRequiredRate, nullish, UAH_CODE,
      Except.map]

/-- C2 witness: the test-fixture legs instantiate the amended synthesis. -/
theorem claim_C2_witness :
    findRate [usdLeg, eurLeg] 840 978 =
      some { currencyCodeA := 840, currencyCodeB := 978,
             date := max usdLeg.date eurLeg.date,
             rateBuy := none, rateSell := none,
             rateCross := some (jsOr usdLeg.rateBuy (jsOr usdLeg.rateCross 1) /
               jsOr eurLeg.rateSell (jsOr eurLeg.rateCross 1)) } :=
  claim_C2.1 [usdLeg, eurLeg] 840 978 usdLeg eurLeg (by decide)
    (by decide)
    (by simp [usdLeg, eurLeg, isLegFor, UAH_CODE, List.find?])
    (by simp [usdLeg, eurLeg, isLegFor, UAH_CODE, List.find?])

/-! ## C5 -/

/-- The directional selection as the spec words it: for buy, `buyRate` if
present else `crossRate`; for sell, `sellRate` if present else `crossRate`;
for cross, `crossRate` only. -/
def selectedRate (rate : MonobankRate) : RateType → Option ℚ
  | .buy => nullish rate.rateBuy rate.rateCross
  | .sell => nullish rate.rateSell rate.rateCross
  | .cross => rate.rateCross

/-- Lemma: `getRequiredRate` in terms of the selected directional value: error on an
absent or zero selection, the value otherwise. -/
theorem getRequiredRate_eq (rate : MonobankRate) (t : RateType) :
    getRequiredRate rate t =
      match selectedRate rate t with
      | none => .error .incompleteRateData
      | some v => if v = 0 then .error .incompleteRateData else .ok v := by
  cases t <;> rfl

/-- A leg whose buy rate is present but negative. -/
def negBuyLeg : MonobankRate :=
  { currencyCodeA := 840, currencyCodeB := 980, date := 0,
    rateBuy := some (-1) }

/-- C5 counterexample: a present but negative (hence non-positive) buy rate
is returned as a valid value instead of failing with the incomplete-rate-data
error — the `!value` guard only catches absent or zero. -/
theorem claim_C5_cex :
    getRequiredRate negBuyLeg .buy = .ok (-1) ∧ (-1 : ℚ) < 0 := by
  refine ⟨?_, by norm_num⟩
  simp [getRequiredRate, nullish, negBuyLeg]

/-- C5 (amended): the directional selection is as the claim states (buy →
`buyRate ?? crossRate`, sell → `sellRate ?? crossRate`, cross → `crossRate`),
and the conversion fails with the incomplete-rate-data error — distinct from
the rate-not-found error — exactly when the selected value is absent or zero
(JS falsy); a present negative value is not rejected. -/
theorem claim_C5 (rate : MonobankRate) (t : RateType) :
    (getRequiredRate rate t = .error .incompleteRateData ↔
      selectedRate rate t = none ∨ selectedRate rate t = some 0) ∧
    (∀ v : ℚ, selectedRate rate t = some v → v ≠ 0 →
      getRequiredRate rate t = .ok v) ∧
    ConvError.incompleteRateData ≠ ConvError.rateNotFound := by
  refine ⟨?_, ?_, by simp⟩
  · rw [getRequiredRate_eq]
    cases hs : selectedRate rate t with
    | none => simp
    | some v => by_cases hv : v = 0 <;> simp [hv]
  · intro v hs hv
    rw [getRequiredRate_eq, hs]
    simp [hv]

/-- C5 witness: the buy selection on the USD fixture. -/
theorem claim_C5_witness :
    getRequiredRate usdLeg .buy = .ok (75 / 2) :=
  (claim_C5 usdLeg .buy).2.1 (75 / 2)
    (by simp [selectedRate, nullish, usdLeg]) (by norm_num)

/-! ## C6 -/

/-- C6: the resolver's lookup discipline — with a base-currency side, the
first snapshot record pairing the foreign code with the base currency wins
(first match in snapshot order, also across duplicates), else not found; with
neither side the base currency, a missing leg means not found. -/
theorem claim_C6 (rates : List MonobankRate) (fromCode toCode : ℕ) :
    ((fromCode = UAH_CODE ∨ toCode = UAH_CODE) →
      (∀ pre r post, rates = pre ++ r :: post →
        isLegFor (if fromCode = UAH_CODE then toCode else fromCode) r =
          true →
        (∀ x ∈ pre,
          isLegFor (if fromCode = UAH_CODE then toCode else fromCode) x =
            false) →
        findRate rates fromCode toCode = some r) ∧
      ((∀ x ∈ rates,
          isLegFor (if fromCode = UAH_CODE then toCode else fromCode) x =
            false) →
        findRate rates fromCode toCode = none)) ∧
    (fromCode ≠ UAH_CODE → toCode ≠ UAH_CODE →
      ((∀ x ∈ rates, isLegFor fromCode x = false) ∨
        (∀ x ∈ rates, isLegFor toCode x = false)) →
      findRate rates fromCode toCode = none) := by
  constructor
  · intro h
    constructor
    · intro pre r post hsplit hr hpre
      rw [findRate_direct_eq rates fromCode toCode h, hsplit]
      exact find?_eq_some_of_first _ pre r post hr hpre
    · intro hnone
      rw [findRate_direct_eq rates fromCode toCode h, List.find?_eq_none]
      intro x hx
      simp [hnone x hx]
  · intro hf ht hmiss
    apply findRate_cross_none rates fromCode toCode hf ht
    rcases hmiss with h | h
    · exact Or.inl (List.find?_eq_none.mpr fun x hx => by simp [h x hx])
    · exact Or.inr (List.find?_eq_none.mpr fun x hx => by simp [h x hx])

/-- A stale duplicate of the USD leg, to exercise the first-match policy. -/
def usdLegStale : MonobankRate :=
  { currencyCodeA := 840, currencyCodeB := 980, date := 100,
    rateBuy := some 39, rateSell := some 40 }

/-- C6 witness: with a duplicate USD record later in the snapshot, the first
one wins. -/
theorem claim_C6_witness :
    findRate [eurLeg, usdLeg, usdLegStale] 840 980 = some usdLeg :=
  ((claim_C6 [eurLeg, usdLeg, usdLegStale] 840 980).1 (Or.inr rfl)).1
    [eurLeg] usdLeg [usdLegStale] rfl (by decide) (by decide)

/-! ## C7 -/

/-- A matching record with no rate field populated at all. -/
def bareLeg : MonobankRate :=
  { currencyCodeA := 840, currencyCodeB := 980, date := 0 }

/-- C7 counterexample: the resolver's direct path returns a record none of
whose rate fields is populated — it performs no rate-field validation. -/
theorem claim_C7_cex :
    findRate [bareLeg] 840 980 = some bareLeg ∧ bareLeg.rateBuy = none ∧
      bareLeg.rateSell = none ∧ bareLeg.rateCross = none := by
  refine ⟨?_, rfl, rfl, rfl⟩
  simp [findRate, isLegFor, bareLeg, UAH_CODE, List.find?]

/-- C7 (amended): the resolver itself can return a record with no rate field
populated (the direct path returns the first code match verbatim); such a
record is instead unusable downstream — `getRequiredRate` fails on it for
every kind, so every conversion direction fails with incomplete-rate-data —
and records synthesized by the cross path always carry a `crossRate`. -/
theorem claim_C7 :
    (∀ rate : MonobankRate, rate.rateBuy = none → rate.rateSell = none →
      rate.rateCross = none →
      (∀ t, getRequiredRate rate t = .error .incompleteRateData) ∧
      (∀ (amount : ℚ) (fromCode toCode : ℕ),
        calculateConversion amount rate fromCode toCode =
          .error .incompleteRateData)) ∧
    (∀ (rates : List MonobankRate) (fromCode toCode : ℕ) (r : MonobankRate),
      fromCode ≠ UAH_CODE → toCode ≠ UAH_CODE →
      findRate rates fromCode toCode = some r → r.rateCross ≠ none) := by
  constructor
  · intro rate hb hs hc
    have hreq : ∀ t, getRequiredRate rate t = .error .incompleteRateData := by
      intro t
      cases t <;> simp [getRequiredRate, nullish, hb, hs, hc]
    refine ⟨hreq, ?_⟩
    intro amount fc tc
    unfold calculateConversion
    split_ifs <;> simp [hreq, Except.map]
  · intro rates fc tc r hf ht hfind
    cases h1 : rates.find? (isLegFor fc) with
    | none =>
      rw [findRate_cross_none rates fc tc hf ht (Or.inl h1)] at hfind
      cases hfind
    | some src =>
      cases h2 : rates.find? (isLegFor tc) with
      | none =>
        rw [findRate_cross_none rates fc tc hf ht (Or.inr h2)] at hfind
        cases hfind
      | some tgt =>
        rw [findRate_cross_eq rates fc tc src tgt hf ht h1 h2] at hfind
        injection hfind with h
        subst h
        simp

/-- C7 witness: the all-empty record fails `getRequiredRate` for every kind
and `calculateConversion` for every direction. -/
theorem claim_C7_witness :
    getRequiredRate bareLeg .buy = .error .incompleteRateData ∧
      calculateConversion 100 bareLeg 980 840 =
        .error .incompleteRateData :=
  ⟨(claim_C7.1 bareLeg rfl rfl rfl).1 .buy,
    (claim_C7.1 bareLeg rfl rfl rfl).2 100 980 840⟩

/-! ## C9 -/

/-- A bad-request (HTTP 400) error: `InvalidInput` in the spec taxonomy. -/
def isBadRequest : ConvError → Bool
  | .invalidAmount => true
  | .unsupportedCurrency => true
  | .rateNotFound => false
  | .incompleteRateData => false

/-- C9: a non-positive amount or a symbol without a numeric code makes
`convert` fail with a bad-request error before the upstream fetch and before
the resolver runs. -/
theorem claim_C9 (lookup : String → Option ℕ) (cache : Option ConvertResponse)
    (rates : List MonobankRate) (fromSymbol toSymbol : String) (amount : ℚ)
    (h : amount ≤ 0 ∨ lookup fromSymbol = none ∨ lookup toSymbol = none) :
    (convert lookup cache rates fromSymbol toSymbol amount).fetchCalled =
      false ∧
    (convert lookup cache rates fromSymbol toSymbol amount).resolverCalled =
      false ∧
    ((convert lookup cache rates fromSymbol toSymbol amount).result =
        .error .invalidAmount ∨
      (convert lookup cache rates fromSymbol toSymbol amount).result =
        .error .unsupportedCurrency) ∧
    isBadRequest .invalidAmount = true ∧
    isBadRequest .unsupportedCurrency = true := by
  rcases h with h | h | h
  · simp [convert, h, isBadRequest]
  · by_cases ha : amount ≤ 0 <;> simp [convert, ha, h, isBadRequest]
  · by_cases ha : amount ≤ 0
    · simp [convert, ha, isBadRequest]
    · cases hf : lookup fromSymbol with
      | none => simp [convert, ha, hf, isBadRequest]
      | some c =>
        by_cases hc : c = 0 <;>
          simp [convert, ha, hf, hc, h, isBadRequest]

/-- C9 witness: an empty code table rejects without fetching or resolving. -/
theorem claim_C9_witness :
    (convert (fun _ => none) none [] "usd" "uah" 5).fetchCalled = false ∧
    (convert (fun _ => none) none [] "usd" "uah" 5).resolverCalled = false ∧
    ((convert (fun _ => none) none [] "usd" "uah" 5).result =
        .error .invalidAmount ∨
      (convert (fun _ => none) none [] "usd" "uah" 5).result =
        .error .unsupportedCurrency) ∧
    isBadRequest .invalidAmount = true ∧
    isBadRequest .unsupportedCurrency = true :=
  claim_C9 (fun _ => none) none [] "usd" "uah" 5 (Or.inr (Or.inl rfl))

/-! ## C10 -/

/-- A leg with a present zero buy rate and sell rate 5. -/
def zeroBuyFiveSell : MonobankRate :=
  { currencyCodeA := 840, currencyCodeB := 980, date := 0,
    rateBuy := some 0, rateSell := some 5 }

/-- C10 counterexample: with `rateBuy = 0` (present) and `rateSell = 5`,
converting a currency to itself yields `.ok 20` for amount 100 — the JS `||`
fallback replaces the zero buy rate by 1, so the result is not
`amount * buyRate / sellRate = 0`. -/
theorem claim_C10_cex :
    convertCore [zeroBuyFiveSell] 840 840 100 = .ok 20 ∧
      round4 (100 * 0 / 5) = 0 ∧ (20 : ℚ) ≠ 0 := by
  refine ⟨?_, ?_, by norm_num⟩
  · simp [convertCore, findRate, isLegFor, zeroBuyFiveSell, UAH_CODE,
      List.find?, jsOr, calculateConversion, getRequiredRate, nullish,
      round4, Except.map]
    norm_num
  · simp [round4]
    norm_num

/-- C10 (amended): for a non-base currency whose base leg carries nonzero
`buyRate` and `sellRate`, converting the currency to itself succeeds and
returns `amount * buyRate / sellRate` rounded to 4 decimals (the cross path
uses the same leg on both sides); a present zero rate instead falls back to
`crossRate` or 1, and rounding can make the result coincide with the
original amount, so the result differs from the amount only generically — as
in the concrete USD fixture, where self-conversion of 100 yields 98.6842. -/
theorem claim_C10 :
    (∀ (rates : List MonobankRate) (c : ℕ) (r : MonobankRate)
      (b s amount : ℚ), c ≠ UAH_CODE →
      rates.find? (isLegFor c) = some r →
      r.rateBuy = some b → r.rateSell = some s → b ≠ 0 → s ≠ 0 →
      0 < amount →
      convertCore rates c c amount = .ok (round4 (amount * b / s))) ∧
    convertCore [usdLeg] 840 840 100 = .ok (493421 / 5000) ∧
    (493421 / 5000 : ℚ) ≠ 100 := by
  refine ⟨?_, ?_, by norm_num⟩
  · intro rates c r b s amount hc hleg hb hs hb0 hs0 ha
    have hfind := findRate_cross_eq rates c c r r hc hc hleg hleg
    have hcr : jsOr r.rateBuy (jsOr r.rateCross 1) /
        jsOr r.rateSell (jsOr r.rateCross 1) = b / s := by
      rw [hb, hs]
      simp [jsOr, hb0, hs0]
    have hne : b / s ≠ 0 := div_ne_zero hb0 hs0
    unfold convertCore
    rw [if_neg (not_le.mpr ha), hfind]
    simp [calculateConversion, hc, getRequiredRate, hcr, hne, Except.map,
      mul_div_assoc]
  · simp [convertCore, findRate, isLegFor, usdLeg, UAH_CODE, List.find?,
      jsOr, calculateConversion, getRequiredRate, nullish, round4,
      Except.map]
    norm_num

/-- C10 witness: EUR self-conversion of 200 with the fixture leg. -/
theorem claim_C10_witness :
    convertCore [eurLeg] 978 978 200 =
      .ok (round4 (200 * 41 / (83 / 2))) :=
  claim_C10.1 [eurLeg] 978 eurLeg 41 (83 / 2) 200 (by decide)
    (by simp [eurLeg, isLegFor, UAH_CODE, List.find?]) rfl rfl
    (by norm_num) (by norm_num) (by norm_num)

/-! ## C4 -/

/-- C4: the retrier with `maxAttempts = 3`, `baseDelay = 1000` — attempt 1 is
immediate; a first-response 4xx aborts after exactly one transport call with
the provider status; a network-class failure on attempt k waits
`1000 * 2 ^ (k-1)` before the next attempt; three network-class failures
surface a service-unavailable error distinct from the per-attempt client
errors; a success returns immediately with no further attempts. -/
theorem claim_C4 (transport : ℕ → AttemptOutcome) :
    (∀ rates, transport 1 = .ok rates →
      fetchWithRetry 3 1000 transport = ⟨.ok rates, 1, []⟩) ∧
    (∀ st, transport 1 = .fail (some st) → 400 ≤ st → st < 500 →
      fetchWithRetry 3 1000 transport = ⟨.error (.clientError st), 1, []⟩) ∧
    (∀ st1 rates, transport 1 = .fail st1 → isClientStatus st1 = false →
      transport 2 = .ok rates →
      fetchWithRetry 3 1000 transport = ⟨.ok rates, 2, [1000]⟩) ∧
    (∀ st1 st2 rates, transport 1 = .fail st1 → isClientStatus st1 = false →
      transport 2 = .fail st2 → isClientStatus st2 = false →
      transport 3 = .ok rates →
      fetchWithRetry 3 1000 transport = ⟨.ok rates, 3, [1000, 2000]⟩) ∧
    (∀ st1 st2 st3, transport 1 = .fail st1 → isClientStatus st1 = false →
      transport 2 = .fail st2 → isClientStatus st2 = false →
      transport 3 = .fail st3 → isClientStatus st3 = false →
      fetchWithRetry 3 1000 transport =
        ⟨.error .serviceUnavailable, 3, [1000, 2000]⟩) ∧
    (∀ st, RetryError.serviceUnavailable ≠ RetryError.clientError st) := by
  refine ⟨?_, ?_, ?_, ?_, ?_, by intro st h; cases h⟩
  · intro rates h1
    simp [fetchWithRetry, fetchWithRetryGo, h1]
  · intro st h1 h400 h500
    have hcs : isClientStatus (some st) = true := by
      simp only [isClientStatus, decide_eq_true_eq]
      omega
    simp [fetchWithRetry, fetchWithRetryGo, h1, hcs]
  · intro st1 rates h1 hc1 h2
    simp [fetchWithRetry, fetchWithRetryGo, h1, hc1, h2]
  · intro st1 st2 rates h1 hc1 h2 hc2 h3
    simp [fetchWithRetry, fetchWithRetryGo, h1, hc1, h2, hc2, h3]
  · intro st1 st2 st3 h1 hc1 h2 hc2 h3 hc3
    simp [fetchWithRetry, fetchWithRetryGo, h1, hc1, h2, hc2, h3, hc3]

/-- C4 witness: a transport that always times out exhausts the budget with
backoffs 1000, 2000. -/
theorem claim_C4_witness :
    fetchWithRetry 3 1000 (fun _ => .fail none) =
      ⟨.error .serviceUnavailable, 3, [1000, 2000]⟩ :=
  (claim_C4 fun _ => .fail none).2.2.2.2.1 none none none rfl rfl rfl rfl
    rfl rfl

/-! ## C3 -/

/-- The breaker phase invariant: the circuit is open exactly when the
consecutive-failure count has reached the threshold. -/
def cbInvariant (cfg : CBConfig) (s : CBState) : Prop :=
  s.circuitOpen = true ↔ cfg.failureThreshold ≤ s.failureCount

/-- C3: the circuit-breaker state machine — (a) while open within the reset
timeout every call fails fast with the service-unavailable rejection, state
untouched and no fetch attempted; (b) once the timeout has elapsed the call
is let through as a trial; (c) a successful attempted call resets the count
to 0 and clears the failure timestamp; (d) a failed outer call increments
the count by exactly one — whatever the inner retry trace was — stamps the
failure time, and opens the circuit exactly when the count reaches the
threshold; (e) the open-iff-threshold-reached invariant holds initially and
is preserved by every call. -/
theorem claim_C3 (cfg : CBConfig) (hthr : 1 ≤ cfg.failureThreshold) :
    (∀ (s : CBState) (now : ℤ) inner, s.circuitOpen = true →
      now - s.lastFailureTime.getD 0 < cfg.circuitTimeout →
      fetchWithCircuitBreaker cfg s now inner =
        ⟨false, .error .circuitOpenRejection, s⟩) ∧
    (∀ (s : CBState) (now : ℤ) inner,
      cfg.circuitTimeout ≤ now - s.lastFailureTime.getD 0 →
      (fetchWithCircuitBreaker cfg s now inner).attempted = true) ∧
    (∀ (s : CBState) (now : ℤ) rates,
      (fetchWithCircuitBreaker cfg s now (.ok rates)).attempted = true →
      fetchWithCircuitBreaker cfg s now (.ok rates) =
        ⟨true, .ok rates, ⟨0, none, false⟩⟩) ∧
    (∀ (s : CBState) (now : ℤ) (retries delay : ℕ) transport e,
      (fetchWithRetry retries delay transport).result = .error e →
      (fetchWithCircuitBreaker cfg s now
        (fetchWithRetry retries delay transport).result).attempted = true →
      (fetchWithCircuitBreaker cfg s now
        (fetchWithRetry retries delay transport).result).state =
        ⟨s.failureCount + 1, some now,
          if cfg.failureThreshold ≤ s.failureCount + 1 then true
          else s.circuitOpen⟩) ∧
    (cbInvariant cfg initialCBState ∧
      ∀ (s : CBState) (now : ℤ) inner, cbInvariant cfg s →
        cbInvariant cfg (fetchWithCircuitBreaker cfg s now inner).state) := by
  refine ⟨?_, ?_, ?_, ?_, ?_, ?_⟩
  · intro s now inner ho ht
    unfold fetchWithCircuitBreaker
    rw [if_pos ⟨ho, ht⟩]
  · intro s now inner ht
    unfold fetchWithCircuitBreaker
    rw [if_neg fun hcon => absurd hcon.2 (not_lt.mpr ht)]
    cases inner <;> rfl
  · intro s now rates hatt
    unfold fetchWithCircuitBreaker at hatt ⊢
    by_cases hcond : s.circuitOpen = true ∧
        now - s.lastFailureTime.getD 0 < cfg.circuitTimeout
    · rw [if_pos hcond] at hatt
      cases hatt
    · rw [if_neg hcond]
  · intro s now retries delay transport e hres hatt
    unfold fetchWithCircuitBreaker at hatt ⊢
    by_cases hcond : s.circuitOpen = true ∧
        now - s.lastFailureTime.getD 0 < cfg.circuitTimeout
    · rw [if_pos hcond] at hatt
      cases hatt
    · rw [if_neg hcond, hres]
      simp [handleCircuitBreakerFailure]
  · simp [cbInvariant, initialCBState]
    omega
  · intro s now inner hinv
    unfold cbInvariant at hinv ⊢
    unfold fetchWithCircuitBreaker
    by_cases hcond : s.circuitOpen = true ∧
        now - s.lastFailureTime.getD 0 < cfg.circuitTimeout
    · rw [if_pos hcond]
      exact hinv
    · rw [if_neg hcond]
      cases inner with
      | ok rates =>
        show false = true ↔ cfg.failureThreshold ≤ 0
        simp
        omega
      | error e =>
        show (if cfg.failureThreshold ≤ s.failureCount + 1 then true
            else s.circuitOpen) = true ↔
          cfg.failureThreshold ≤ s.failureCount + 1
        by_cases hth : cfg.failureThreshold ≤ s.failureCount + 1
        · rw [if_pos hth]
          simp [hth]
        · rw [if_neg hth]
          constructor
          · intro hopen
            exact absurd (hinv.mp hopen) fun hle => hth (by omega)
          · intro hle
            exact absurd hle hth

/-- C3 witness: an open breaker (threshold 3 reached, last failure at time
1000) rejects a call at time 2000 without attempting the fetch. -/
theorem claim_C3_witness :
    fetchWithCircuitBreaker ⟨3, 30000⟩ ⟨3, some 1000, true⟩ 2000 (.ok []) =
      ⟨false, .error .circuitOpenRejection, ⟨3, some 1000, true⟩⟩ :=
  (claim_C3 ⟨3, 30000⟩ (by norm_num)).1 ⟨3, some 1000, true⟩ 2000 (.ok [])
    rfl (by norm_num [Option.getD])

/-! ## C8 -/

/-- C8 counterexample: with the USD fixture (buy 37.5, sell 38), converting
100 USD→UAH gives 3750, converting 3750 UAH→USD gives 98.6842 — off by
1.3158, far beyond the 4-decimal rounding tolerance: the round trip loses
the buy/sell spread. -/
theorem claim_C8_cex :
    convertCore [usdLeg] 840 980 100 = .ok 3750 ∧
    convertCore [usdLeg] 980 840 3750 = .ok (493421 / 5000) ∧
    ¬ |(493421 / 5000 : ℚ) - 100| ≤ 1 / 10000 := by
  refine ⟨?_, ?_, ?_⟩
  · simp [convertCore, findRate, isLegFor, usdLeg, UAH_CODE, List.find?,
      calculateConversion, getRequiredRate, nullish, round4, Except.map]
    norm_num
  · simp [convertCore, findRate, isLegFor, usdLeg, UAH_CODE, List.find?,
      calculateConversion, getRequiredRate, nullish, round4, Except.map]
    norm_num
  · rw [abs_of_nonpos (by norm_num)]
    norm_num

/-- C8 (amended): the round trip A→base→A multiplies by buyRate/sellRate
before rounding, so it approximates the original amount within rounding
tolerance only without a spread: when the leg has equal buy and sell rates
`v ≥ 1` and the amount is at least one rounding quantum, both legs succeed
and the result is within 10⁻⁴ of the original amount; with distinct buy and
sell rates the claim fails (the spread is lost, as in the counterexample). -/
theorem claim_C8 (rates : List MonobankRate) (c : ℕ) (r : MonobankRate)
    (v X : ℚ) (hc : c ≠ UAH_CODE)
    (hleg : rates.find? (isLegFor c) = some r)
    (hbuy : r.rateBuy = some v) (hsell : r.rateSell = some v)
    (hv : 1 ≤ v) (hX : 1 / 10000 ≤ X) :
    ∃ z, ((convertCore rates c UAH_CODE X).bind fun y =>
        convertCore rates UAH_CODE c y) = .ok z ∧ |z - X| ≤ 1 / 10000 := by
  have hvpos : (0 : ℚ) < v := by linarith
  have hv0 : v ≠ 0 := ne_of_gt hvpos
  have hX0 : (0 : ℚ) < X := by linarith
  have h1 : findRate rates c UAH_CODE = some r := by
    rw [findRate_direct_eq rates c UAH_CODE (Or.inr rfl), if_neg hc, hleg]
  have h2 : findRate rates UAH_CODE c = some r := by
    rw [findRate_direct_eq rates UAH_CODE c (Or.inl rfl), if_pos rfl, hleg]
  have hXv : 1 / 10000 ≤ X * v := by nlinarith
  have hy_pos : 0 < round4 (X * v) := round4_pos_of_le (X * v) hXv
  have hleg1 : convertCore rates c UAH_CODE X = .ok (round4 (X * v)) := by
    unfold convertCore
    rw [if_neg (not_le.mpr hX0), h1]
    simp [calculateConversion, getRequiredRate, nullish, hbuy, hv0,
      Except.map]
  have hleg2 : convertCore rates UAH_CODE c (round4 (X * v)) =
      .ok (round4 (round4 (X * v) / v)) := by
    unfold convertCore
    rw [if_neg (not_le.mpr hy_pos), h2]
    simp [calculateConversion, hc, getRequiredRate, nullish, hsell, hv0,
      Except.map]
  refine ⟨round4 (round4 (X * v) / v), ?_, ?_⟩
  · rw [hleg1]
    simpa [Except.bind] using hleg2
  · have e1 := abs_round4_sub_le (X * v)
    have e2 := abs_round4_sub_le (round4 (X * v) / v)
    rw [abs_le] at e1 e2
    have hyub : round4 (X * v) / v ≤ X + 1 / 20000 := by
      rw [div_le_iff₀ hvpos]
      nlinarith [e1.2]
    have hylb : X - 1 / 20000 ≤ round4 (X * v) / v := by
      rw [le_div_iff₀ hvpos]
      nlinarith [e1.1]
    rw [abs_le]
    constructor <;> linarith [e2.1, e2.2]

/-- A spread-free leg: buy and sell both 40. -/
def parityLeg : MonobankRate :=
  { currencyCodeA := 840, currencyCodeB := 980, date := 0,
    rateBuy := some 40, rateSell := some 40 }

/-- C8 witness: with a spread-free leg the 100-unit round trip lands within
the rounding tolerance. -/
theorem claim_C8_witness :
    ∃ z, ((convertCore [parityLeg] 840 980 100).bind fun y =>
        convertCore [parityLeg] 980 840 y) = .ok z ∧
      |z - 100| ≤ 1 / 10000 :=
  claim_C8 [parityLeg] 840 parityLeg 40 100 (by decide)
    (by simp [parityLeg, isLegFor, UAH_CODE, List.find?]) rfl rfl
    (by norm_num) (by norm_num)

end CurrencyConverter
